import Mathlib

/-!
Verification of the srl-zoo excerpt (supervised baseline trainer and the
composite forward/inverse/reward model builder) against its specification.

Numeric batch entries are modelled as rationals; a PyTorch tensor row is a
`List ℚ`.  Fallible tensor operations (shape-checked linear layers,
elementwise addition) return `Option`; Python-level construction that can
raise returns `Except String`.
-/

namespace SrlZoo

/-- Dot product of two rational vectors (zip-truncating, as in matrix rows). -/
def dotQ (xs ys : List ℚ) : ℚ := (List.zipWith (· * ·) xs ys).sum

/-- A `torch.nn.Linear` layer: a weight matrix (list of rows) and a bias vector. -/
structure Linear where
  weight : List (List ℚ)
  bias : List ℚ
deriving Repr, DecidableEq

/-- `l` has the shape produced by `nn.Linear(inW, outW)`:
`outW` rows of width `inW` and an `outW`-wide bias. -/
def Linear.hasShape (l : Linear) (inW outW : Nat) : Prop :=
  l.weight.length = outW ∧ l.bias.length = outW ∧ ∀ row ∈ l.weight, row.length = inW

instance (l : Linear) (inW outW : Nat) : Decidable (l.hasShape inW outW) := by
  unfold Linear.hasShape; infer_instance

/-- Apply a linear layer to an input vector; PyTorch raises a shape error when
the input width does not match every weight row, modelled as `none`. -/
def applyLinear (l : Linear) (x : List ℚ) : Option (List ℚ) :=
  if ∀ row ∈ l.weight, row.length = x.length then
    some (List.zipWith (fun row b => dotQ row x + b) l.weight l.bias)
  else none

/-- The zero-initialised layer of shape `nn.Linear(inW, outW)`; stands in for a
freshly constructed layer in concrete witnesses. -/
def zerosLinear (inW outW : Nat) : Linear :=
  ⟨List.replicate outW (List.replicate inW 0), List.replicate outW 0⟩

/-- Elementwise ReLU over a vector. -/
def reluVec (x : List ℚ) : List ℚ := x.map (fun a => max a 0)

/-- Elementwise tensor addition: shapes must agree, else a broadcast error
(modelled as `none`). -/
def addVec (x y : List ℚ) : Option (List ℚ) :=
  if x.length = y.length then some (List.zipWith (· + ·) x y) else none

/-- Python `int()` applied to a rational: truncation toward zero
(`num/den` in truncating integer division; rationals are kept normalised with
a positive denominator). -/
def pyInt (q : ℚ) : Int := q.num.tdiv q.den

/-- `int(state_dim * ratio)`, the state-slice width used by all three heads
in `models/forward_inverse.py`. -/
def sliceWidth (state_dim : Nat) (ratio : ℚ) : Nat := (pyInt (state_dim * ratio)).toNat

/-- Modelled from the spec: `encodeOneHot` lives in `models/models.py`, which is
not part of the excerpt; per the spec it one-hot encodes a discrete action into
a width-`action_dim` vector. -/
def encodeOneHot (action_dim : Nat) (action : Nat) : List ℚ :=
  (List.range action_dim).map (fun i => if i = action then 1 else 0)

/-- The attributes set by `BaseForwardModel.initForwardNet`.  The `forward_net`
field stands for the freshly constructed
`nn.Linear(int(state_dim*ratio) + action_dim, state_dim)`; theorems carry its
shape as a `Linear.hasShape` hypothesis. -/
structure ForwardModelAttrs where
  state_dim : Nat
  action_dim : Nat
  forward_net : Linear
  ratio : ℚ
deriving Repr, DecidableEq

/-- `BaseForwardModel.initForwardNet`. -/
def initForwardNet (state_dim action_dim : Nat) (ratio : ℚ) (net : Linear) :
    ForwardModelAttrs :=
  ⟨state_dim, action_dim, net, ratio⟩

/-- `BaseForwardModel.forwardModel`: predict the delta from the `ratio`-sliced
state concatenated with the one-hot action, and add it to the full state. -/
def forwardModel (m : ForwardModelAttrs) (state : List ℚ) (action : Nat) :
    Option (List ℚ) :=
  (applyLinear m.forward_net
      (state.take (sliceWidth m.state_dim m.ratio) ++ encodeOneHot m.action_dim action)).bind
    (fun delta => addVec state delta)

/-- The attributes set by `BaseInverseModel.initInverseNet`; `inverse_net`
stands for `nn.Linear(int(state_dim*ratio) * 2, action_dim)`. -/
structure InverseModelAttrs where
  inverse_net : Linear
  state_dim : Nat
  action_dim : Nat
  ratio : ℚ
deriving Repr, DecidableEq

/-- `BaseInverseModel.initInverseNet`. -/
def initInverseNet (state_dim action_dim : Nat) (ratio : ℚ) (net : Linear) :
    InverseModelAttrs :=
  ⟨net, state_dim, action_dim, ratio⟩

/-- `BaseInverseModel.inverseModel`: apply the inverse net to the `ratio`-sliced
current and next states, concatenated. -/
def inverseModel (m : InverseModelAttrs) (state next_state : List ℚ) :
    Option (List ℚ) :=
  applyLinear m.inverse_net
    (state.take (sliceWidth m.state_dim m.ratio) ++
      next_state.take (sliceWidth m.state_dim m.ratio))

/-- The attributes set by `BaseRewardModel.initRewardNet`: the three linear
layers of `nn.Sequential(Linear(int(state_dim*ratio), 2), ReLU, Linear(2, 2),
ReLU, Linear(2, 2))`. -/
structure RewardModelAttrs where
  state_dim : Nat
  action_dim : Nat
  reward_l1 : Linear
  reward_l2 : Linear
  reward_l3 : Linear
  ratio : ℚ
deriving Repr, DecidableEq

/-- `BaseRewardModel.initRewardNet`. -/
def initRewardNet (state_dim action_dim : Nat) (ratio : ℚ) (l1 l2 l3 : Linear) :
    RewardModelAttrs :=
  ⟨state_dim, action_dim, l1, l2, l3, ratio⟩

/-- `BaseRewardModel.rewardModel`: the reward net applied to the FULL state
(the sliced variant is only a comment in the source), with ReLU after the
first two layers and no activation after the last. -/
def rewardModel (m : RewardModelAttrs) (state : List ℚ) : Option (List ℚ) :=
  (applyLinear m.reward_l1 state).bind fun y =>
    (applyLinear m.reward_l2 (reluVec y)).bind fun z =>
      applyLinear m.reward_l3 (reluVec z)

/-- The base-encoder architectures that `SRLModules.__init__` knows how to
build (the branches of its `model_type` if-chain). -/
inductive EncoderArch
  | custom_cnn
  | linear
  | mlp
  | resnet
  | ae
deriving Repr, DecidableEq

/-- The `self.nn` assignment in `SRLModules.__init__`: the if-chain over
`model_type` has NO else branch, so an unknown selector leaves the attribute
unset (`none`). -/
def srlEncoderFor (model_type : String) : Option EncoderArch :=
  if model_type = "custom_cnn" then some .custom_cnn
  else if model_type = "linear" then some .linear
  else if model_type = "mlp" then some .mlp
  else if model_type = "resnet" then some .resnet
  else if model_type = "ae" then some .ae
  else none

/-- The attribute state of a constructed `SRLModules` object: which head
attributes were initialised, and whether `self.nn` was assigned. -/
structure SRLModulesState where
  model_type : String
  forwardAttrs : Option ForwardModelAttrs
  inverseAttrs : Option InverseModelAttrs
  rewardAttrs : Option RewardModelAttrs
  nn : Option EncoderArch
deriving Repr, DecidableEq

/-- `SRLModules.__init__`.  `losses` is `Option` because the Python default is
`None`, and the membership tests such as `"forward" not in losses` run on whatever was
passed: on `None` they raise `TypeError`.  The five `Linear` arguments stand
for the freshly built layers of the heads (used only for requested losses).
With `cuda=True` and an unknown `model_type`, `self.nn.cuda()` raises an
`AttributeError`; with `cuda=False` the unknown selector is silently ignored. -/
def srlModulesInit (state_dim action_dim : Nat) (ratio : ℚ) (cuda : Bool)
    (losses : Option (List String)) (model_type : String)
    (fnet inet rnet1 rnet2 rnet3 : Linear) : Except String SRLModulesState :=
  match losses with
  | none => .error "TypeError: argument of type NoneType is not iterable"
  | some ls =>
    let fA := if ls.contains "forward" then
        some (initForwardNet state_dim action_dim ratio fnet) else none
    let iA := if ls.contains "inverse" then
        some (initInverseNet state_dim action_dim ratio inet) else none
    let rA := if ls.contains "reward" then
        some (initRewardNet state_dim action_dim ratio rnet1 rnet2 rnet3) else none
    let nn := srlEncoderFor model_type
    if cuda && nn.isNone then
      .error "AttributeError: SRLModules object has no attribute nn"
    else
      .ok ⟨model_type, fA, iA, rA, nn⟩

/-- Calling `forwardModel` on a constructed `SRLModules`: if the forward head
was never initialised, Python raises `AttributeError` on the missing
`self.state_dim` / `self.forward_net`; a shape mismatch raises a
`RuntimeError`. -/
def SRLModulesState.callForwardModel (m : SRLModulesState) (state : List ℚ)
    (action : Nat) : Except String (List ℚ) :=
  match m.forwardAttrs with
  | none => .error "AttributeError: SRLModules object has no attribute state_dim"
  | some a =>
    match forwardModel a state action with
    | some out => .ok out
    | none => .error "RuntimeError: size mismatch"

/-- Calling `inverseModel` on a constructed `SRLModules` (see
`SRLModulesState.callForwardModel`). -/
def SRLModulesState.callInverseModel (m : SRLModulesState) (state next_state : List ℚ) :
    Except String (List ℚ) :=
  match m.inverseAttrs with
  | none => .error "AttributeError: SRLModules object has no attribute state_dim"
  | some a =>
    match inverseModel a state next_state with
    | some out => .ok out
    | none => .error "RuntimeError: size mismatch"

/-- Calling `rewardModel` on a constructed `SRLModules` (see
`SRLModulesState.callForwardModel`). -/
def SRLModulesState.callRewardModel (m : SRLModulesState) (state : List ℚ) :
    Except String (List ℚ) :=
  match m.rewardAttrs with
  | none => .error "AttributeError: SRLModules object has no attribute reward_net"
  | some a =>
    match rewardModel a state with
    | some out => .ok out
    | none => .error "RuntimeError: size mismatch"

/-! ## Supervised baseline trainer (`baselines/supervised.py`) -/

/-- The architecture selected by `SupervisedLearning.__init__`. -/
inductive SupervisedModel
  | resnet
  | mlp
deriving Repr, DecidableEq

/-- The architecture if-chain of `SupervisedLearning.__init__`: unknown
selectors raise `ValueError("Unknown model: ...")` naming the selector. -/
def supervisedLearningInit (model_type : String) : Except String SupervisedModel :=
  if model_type = "resnet" then .ok .resnet
  else if model_type = "mlp" then .ok .mlp
  else .error ("Unknown model: " ++ model_type)

/-- The checkpoint path `"{}/srl_supervised_model.pth".format(log_folder)`. -/
def bestModelPath (log_folder : String) : String :=
  log_folder ++ "/srl_supervised_model.pth"

/-- Modelled from the spec: the seeded pseudorandom generator behind sklearn's
`train_test_split(random_state=seed)` (the library is an external boundary, its
exact stream is not part of the excerpt); modelled as a linear congruential
generator so that the split is a deterministic function of the seed. -/
def lcg (g : Nat) : Nat := (1103515245 * g + 12345) % 2 ^ 31

/-- Modelled from the spec: the seed-driven permutation underlying the split,
as a deterministic Fisher-Yates-style shuffle (rotate by a pseudorandom amount,
emit the head, recurse on the tail), structurally recursive on a fuel bound. -/
def shuffleAux : Nat → Nat → List Nat → List Nat
  | 0, _, _ => []
  | _ + 1, _, [] => []
  | fuel + 1, g, x :: xs =>
    ((x :: xs).rotate (g % (xs.length + 1))).headI ::
      shuffleAux fuel (lcg g) ((x :: xs).rotate (g % (xs.length + 1))).tail

/-- The seeded permutation of a list (see `shuffleAux`). -/
def shuffleList (g : Nat) (l : List Nat) : List Nat := shuffleAux l.length g l

/-- Modelled from the spec: sklearn computes the validation-fold size for a
float `test_size` as `ceil(test_size * n_samples)`; with `test_size=0.33` this
is `ceil(33*N/100)`, written in exact integer arithmetic. -/
def nTest (N : Nat) : Nat := (33 * N + 99) / 100

/-- The training-fold size: the complement `N - nTest N`. -/
def nTrain (N : Nat) : Nat := N - nTest N

/-- Modelled from the spec: the `train_test_split(x_indices, ..., test_size=0.33,
random_state=seed)` call in `SupervisedLearning.learn` — shuffle `0..N-1` with
the seeded permutation, reserve the first `nTest N` entries for validation and
the rest for training.  Returns `(train indices, validation indices)`. -/
def trainValSplit (seed N : Nat) : List Nat × List Nat :=
  ((shuffleList seed (List.range N)).drop (nTest N),
    (shuffleList seed (List.range N)).take (nTest N))

/-- Splitting a list into successive batches of size `bs` (fuel-recursive). -/
def chunkAux {α : Type} (bs : Nat) : Nat → List α → List (List α)
  | 0, _ => []
  | _ + 1, [] => []
  | fuel + 1, x :: xs => (x :: xs).take bs :: chunkAux bs fuel ((x :: xs).drop bs)

/-- Modelled from the spec: `SupervisedDataLoader` in evaluation mode
(`is_training=False`) yields the supplied indices as successive batches of the
given batch size, in order (`preprocessing/data_loader.py` is not in the
excerpt). -/
def loaderBatches {α : Type} (indices : List α) (bs : Nat) : List (List α) :=
  chunkAux bs indices.length indices

/-- Modelled from the spec: `BaseLearner.predStatesWithDataLoader` runs the
model over every batch of the loader and concatenates the per-batch outputs in
loader order (`models/base_learner.py` is not in the excerpt).  `model i` is
the network's prediction for sample index `i`. -/
def predStatesWithDataLoader {α β : Type} (model : α → β)
    (batches : List (List α)) : List β :=
  (batches.map (fun b => b.map model)).flatten

/-- The full-dataset prediction `SupervisedLearning.learn` returns: the
plotting loader is built over `x_indices = arange(N)` with `TEST_BATCH_SIZE
= 512` and `is_training=False`. -/
def learnOutput {β : Type} (model : Nat → β) (N : Nat) : List β :=
  predStatesWithDataLoader model (loaderBatches (List.range N) 512)

/-- One epoch of the `learn` loop, abstracted to what checkpointing observes:
the parameter state after the epoch's training pass and the epoch's validation
loss (`np.inf` representable as `⊤`; the float arithmetic producing the loss
is outside the embedding). -/
structure EpochResult (P : Type) where
  params : P
  val_loss : WithTop ℚ

/-- The checkpointing state threaded through the epoch loop: `best_error`
(initially `np.inf`) and the history of `th.save` writes to the checkpoint
file, in order. -/
structure CkptState (P : Type) where
  best_error : WithTop ℚ
  saves : List P

/-- The per-epoch checkpoint update of `SupervisedLearning.learn`:
`if val_loss < best_error: best_error = val_loss; th.save(...)`. -/
def ckptStep {P : Type} (s : CkptState P) (e : EpochResult P) : CkptState P :=
  if e.val_loss < s.best_error then ⟨e.val_loss, s.saves ++ [e.params]⟩ else s

/-- The whole epoch loop, as far as checkpointing is concerned. -/
def runEpochs {P : Type} (epochs : List (EpochResult P)) : CkptState P :=
  epochs.foldl ckptStep ⟨⊤, []⟩

/-- The contents of `<log_folder>/srl_supervised_model.pth` after the loop:
the last write wins; `none` when the file was never written in this run. -/
def checkpointFile {P : Type} (epochs : List (EpochResult P)) : Option P :=
  (runEpochs epochs).saves.getLast?

/-- What `learn` returns: it reloads the checkpoint file
(`load_state_dict(th.load(best_model_path))`, failing if absent) and predicts
with the loaded parameters. -/
def learnReturn {P R : Type} (predStates : P → R) (epochs : List (EpochResult P)) :
    Option R :=
  (checkpointFile epochs).map predStates

/-! ## Helper lemmas -/

/-- The output vector of a linear layer on an input of matching width. -/
def linOut (l : Linear) (x : List ℚ) : List ℚ :=
  List.zipWith (fun row b => dotQ row x + b) l.weight l.bias

theorem encodeOneHot_length (action_dim action : Nat) :
    (encodeOneHot action_dim action).length = action_dim := by
  simp [encodeOneHot]

theorem applyLinear_of_shape (l : Linear) (inW outW : Nat) (x : List ℚ)
    (h : l.hasShape inW outW) (hx : x.length = inW) :
    applyLinear l x = some (linOut l x) ∧ (linOut l x).length = outW := by
  obtain ⟨hw, hb, hrows⟩ := h
  constructor
  · unfold applyLinear
    rw [if_pos]
    · rfl
    · intro row hrow
      rw [hrows row hrow, hx]
  · rw [linOut, List.length_zipWith, hw, hb]
    exact Nat.min_self outW

theorem zerosLinear_hasShape (inW outW : Nat) :
    (zerosLinear inW outW).hasShape inW outW := by
  refine ⟨by simp [zerosLinear], by simp [zerosLinear], ?_⟩
  intro row hrow
  rcases List.eq_of_mem_replicate hrow with rfl
  simp

theorem addVec_eq (x y : List ℚ) (h : x.length = y.length) :
    addVec x y = some (List.zipWith (· + ·) x y) := by
  rw [addVec, if_pos h]

theorem pyInt_natCast (n : Nat) : pyInt (n : ℚ) = n := by
  unfold pyInt
  rw [Rat.num_natCast, Rat.den_natCast]
  simp

theorem sliceWidth_of_eq (sd n : Nat) (r : ℚ) (h : (sd : ℚ) * r = (n : ℚ)) :
    sliceWidth sd r = n := by
  unfold sliceWidth
  rw [h, pyInt_natCast]
  exact Int.toNat_natCast n

theorem sliceWidth_four_one : sliceWidth 4 1 = 4 :=
  sliceWidth_of_eq 4 4 1 (by norm_num)

theorem sliceWidth_two_one : sliceWidth 2 1 = 2 :=
  sliceWidth_of_eq 2 2 1 (by norm_num)

theorem sliceWidth_two_half : sliceWidth 2 (1 / 2) = 1 :=
  sliceWidth_of_eq 2 1 (1 / 2) (by norm_num)

theorem sliceWidth_four_half : sliceWidth 4 (1 / 2) = 2 :=
  sliceWidth_of_eq 4 2 (1 / 2) (by norm_num)

/-- `forwardModel` on well-shaped inputs: the delta is the linear layer applied
to the sliced state concatenated with the one-hot action, and the result is the
full state plus that delta. -/
theorem forwardModel_spec (sd ad : Nat) (r : ℚ) (net : Linear) (state : List ℚ)
    (action : Nat) (hnet : net.hasShape (sliceWidth sd r + ad) sd)
    (hstate : state.length = sd) (hk : sliceWidth sd r ≤ sd) :
    applyLinear net (state.take (sliceWidth sd r) ++ encodeOneHot ad action) =
      some (linOut net (state.take (sliceWidth sd r) ++ encodeOneHot ad action)) ∧
    (linOut net (state.take (sliceWidth sd r) ++ encodeOneHot ad action)).length = sd ∧
    forwardModel (initForwardNet sd ad r net) state action =
      some (List.zipWith (· + ·) state
        (linOut net (state.take (sliceWidth sd r) ++ encodeOneHot ad action))) := by
  have hin : (state.take (sliceWidth sd r) ++ encodeOneHot ad action).length =
      sliceWidth sd r + ad := by
    rw [List.length_append, List.length_take, encodeOneHot_length, hstate,
      Nat.min_eq_left hk]
  obtain ⟨happ, hlen⟩ := applyLinear_of_shape net _ sd _ hnet hin
  refine ⟨happ, hlen, ?_⟩
  show (applyLinear net
      (state.take (sliceWidth sd r) ++ encodeOneHot ad action)).bind
      (fun delta => addVec state delta) = _
  rw [happ]
  show addVec state (linOut net (state.take (sliceWidth sd r) ++ encodeOneHot ad action)) = _
  exact addVec_eq _ _ (by rw [hstate, hlen])

theorem shuffleAux_perm :
    ∀ (fuel g : Nat) (l : List Nat), l.length ≤ fuel → (shuffleAux fuel g l).Perm l := by
  intro fuel
  induction fuel with
  | zero =>
    intro g l h
    rcases List.length_eq_zero.mp (Nat.le_zero.mp h) with rfl
    simp [shuffleAux]
  | succ n ih =>
    intro g l h
    cases l with
    | nil => simp [shuffleAux]
    | cons x xs =>
      have hrot : ((x :: xs).rotate (g % (xs.length + 1))).Perm (x :: xs) :=
        List.rotate_perm _ _
      have hlen : ((x :: xs).rotate (g % (xs.length + 1))).length = xs.length + 1 := by
        rw [List.length_rotate, List.length_cons]
      cases hr : (x :: xs).rotate (g % (xs.length + 1)) with
      | nil => rw [hr] at hlen; simp at hlen
      | cons y ys =>
        rw [hr] at hrot hlen
        have hys : ys.length ≤ n := by
          simp only [List.length_cons] at hlen
          simp only [List.length_cons] at h
          omega
        have ih2 := ih (lcg g) ys hys
        show (shuffleAux (n + 1) g (x :: xs)).Perm (x :: xs)
        rw [shuffleAux, hr]
        exact ((ih2.cons y).trans hrot)

theorem shuffleList_perm (g : Nat) (l : List Nat) : (shuffleList g l).Perm l :=
  shuffleAux_perm l.length g l le_rfl

theorem nTest_le (N : Nat) : nTest N ≤ N := by
  unfold nTest
  omega

theorem chunkAux_flatten {α : Type} (bs : Nat) (hbs : 0 < bs) :
    ∀ (fuel : Nat) (l : List α), l.length ≤ fuel → (chunkAux bs fuel l).flatten = l := by
  intro fuel
  induction fuel with
  | zero =>
    intro l h
    rcases List.length_eq_zero.mp (Nat.le_zero.mp h) with rfl
    simp [chunkAux]
  | succ n ih =>
    intro l h
    cases l with
    | nil => simp [chunkAux]
    | cons x xs =>
      have hd : ((x :: xs).drop bs).length ≤ n := by
        rw [List.length_drop]
        simp only [List.length_cons] at h ⊢
        omega
      rw [chunkAux, List.flatten_cons, ih _ hd, List.take_append_drop]

theorem ckptStep_saves {P : Type} (s : CkptState P) (e : EpochResult P) :
    ∃ t, (ckptStep s e).saves = s.saves ++ t := by
  unfold ckptStep
  by_cases h : e.val_loss < s.best_error
  · exact ⟨[e.params], by rw [if_pos h]⟩
  · exact ⟨[], by rw [if_neg h, List.append_nil]⟩

theorem foldl_ckptStep_saves {P : Type} (l : List (EpochResult P)) :
    ∀ s : CkptState P, ∃ t, (List.foldl ckptStep s l).saves = s.saves ++ t := by
  induction l with
  | nil => intro s; exact ⟨[], by simp⟩
  | cons e l ih =>
    intro s
    obtain ⟨t1, h1⟩ := ckptStep_saves s e
    obtain ⟨t2, h2⟩ := ih (ckptStep s e)
    exact ⟨t1 ++ t2, by rw [List.foldl_cons, h2, h1, List.append_assoc]⟩

/-- The checkpoint invariant of the epoch loop: either no epoch had a finite
loss and nothing was ever written, or the last write holds the parameters of
an epoch attaining the least validation loss. -/
theorem runEpochs_spec {P : Type} (epochs : List (EpochResult P)) :
    (runEpochs epochs = ⟨⊤, []⟩ ∧ ∀ e ∈ epochs, ¬ e.val_loss < ⊤) ∨
    (∃ e ∈ epochs, (runEpochs epochs).best_error = e.val_loss ∧
      (runEpochs epochs).saves.getLast? = some e.params ∧
      ∀ e2 ∈ epochs, e.val_loss ≤ e2.val_loss) := by
  induction epochs using List.reverseRecOn with
  | nil => left; exact ⟨rfl, by simp⟩
  | append_singleton l e ih =>
    have hstep : runEpochs (l ++ [e]) = ckptStep (runEpochs l) e := by
      unfold runEpochs
      rw [List.foldl_append]
      rfl
    rcases ih with ⟨hstate, hall⟩ | ⟨w, hw, hbest, hlast, hmin⟩
    · by_cases hfe : e.val_loss < ⊤
      · right
        refine ⟨e, by simp, ?_, ?_, ?_⟩
        · rw [hstep, hstate, ckptStep, if_pos (by simpa [hstate] using hfe)]
        · rw [hstep, hstate, ckptStep, if_pos (by simpa [hstate] using hfe)]
          simp
        · intro e2 he2
          rcases List.mem_append.mp he2 with h2 | h2
          · have : e2.val_loss = ⊤ := by
              rcases lt_or_eq_of_le (le_top : e2.val_loss ≤ ⊤) with hc | hc
              · exact absurd hc (hall e2 h2)
              · exact hc
            rw [this]
            exact le_top
          · simp at h2
            rw [h2]
      · left
        constructor
        · rw [hstep, hstate, ckptStep, if_neg (by simpa [hstate] using hfe)]
        · intro e2 he2
          rcases List.mem_append.mp he2 with h2 | h2
          · exact hall e2 h2
          · simp at h2
            rw [h2]
            exact hfe
    · by_cases himp : e.val_loss < (runEpochs l).best_error
      · right
        refine ⟨e, by simp, ?_, ?_, ?_⟩
        · rw [hstep, ckptStep, if_pos himp]
        · rw [hstep, ckptStep, if_pos himp]
          exact List.getLast?_concat _
        · intro e2 he2
          rcases List.mem_append.mp he2 with h2 | h2
          · exact le_of_lt (lt_of_lt_of_le (hbest ▸ himp) (hmin e2 h2))
          · simp at h2
            rw [h2]
      · right
        refine ⟨w, List.mem_append.mpr (Or.inl hw), ?_, ?_, ?_⟩
        · rw [hstep, ckptStep, if_neg himp]
          exact hbest
        · rw [hstep, ckptStep, if_neg himp]
          exact hlast
        · intro e2 he2
          rcases List.mem_append.mp he2 with h2 | h2
          · exact hmin e2 h2
          · simp at h2
            rw [h2, ← hbest]
            exact not_lt.mp himp

/-! ## Claim theorems -/

/-- C1 (amended): for every dataset of `N` samples and every seed, the
train/validation split in `SupervisedLearning.learn` is deterministic and
partitions the index set `0..N-1` — with no overlap and no omission — into
exactly `N - ceil(N*0.33)` training indices (equivalently `floor(N*0.67)`)
and `ceil(N*0.33)` validation indices. -/
theorem C1_split_partition (seed N : Nat) :
    trainValSplit seed N = trainValSplit seed N ∧
    (trainValSplit seed N).1.length = N - nTest N ∧
    (trainValSplit seed N).2.length = nTest N ∧
    (trainValSplit seed N).1.length = 67 * N / 100 ∧
    ((trainValSplit seed N).1 ++ (trainValSplit seed N).2).Perm (List.range N) ∧
    List.Disjoint (trainValSplit seed N).1 (trainValSplit seed N).2 := by
  have hperm := shuffleList_perm seed (List.range N)
  have hlen : (shuffleList seed (List.range N)).length = N := by
    rw [hperm.length_eq, List.length_range]
  have hnodup : (shuffleList seed (List.range N)).Nodup :=
    hperm.nodup_iff.mpr (List.nodup_range N)
  have key : (shuffleList seed (List.range N)).take (nTest N) ++
      (shuffleList seed (List.range N)).drop (nTest N) = shuffleList seed (List.range N) :=
    List.take_append_drop _ _
  have h1 : (trainValSplit seed N).1.length = N - nTest N := by
    show ((shuffleList seed (List.range N)).drop (nTest N)).length = N - nTest N
    rw [List.length_drop, hlen]
  refine ⟨rfl, h1, ?_, ?_, ?_, ?_⟩
  · show ((shuffleList seed (List.range N)).take (nTest N)).length = nTest N
    rw [List.length_take, hlen]
    exact Nat.min_eq_left (nTest_le N)
  · rw [h1]
    unfold nTest
    omega
  · have hcomm : ((shuffleList seed (List.range N)).drop (nTest N) ++
        (shuffleList seed (List.range N)).take (nTest N)).Perm
        ((shuffleList seed (List.range N)).take (nTest N) ++
          (shuffleList seed (List.range N)).drop (nTest N)) :=
      List.perm_append_comm
    rw [key] at hcomm
    exact hcomm.trans hperm
  · have h2 : ((shuffleList seed (List.range N)).take (nTest N) ++
        (shuffleList seed (List.range N)).drop (nTest N)).Nodup := by
      rw [key]
      exact hnodup
    exact ((List.nodup_append.mp h2).2.2).symm

/-- C1 counterexample: the claim says the training fold has `round(N*0.67)`
indices, but at `N = 10` the code's split (test fold `ceil(10*0.33) = 4`)
leaves 6 training indices while `round(10*0.67) = round 6.7 = 7`. -/
theorem C1_round_counterexample :
    (trainValSplit 1 10).1.length = 6 ∧ round ((67 : ℚ) / 100 * 10) = 7 := by
  constructor
  · rfl
  · rw [round_eq]
    norm_num

/-- C2: during `learn`, a checkpoint write happens exactly when the epoch's
validation loss is strictly below the best seen so far (initially infinity),
overwriting the single file at `<log_folder>/srl_supervised_model.pth`; after
the loop the checkpoint is reloaded, so `learn` returns the representation of
parameters attaining the minimum validation loss, not the final epoch's. -/
theorem C2_best_checkpoint {P R : Type} (f : P → R) (lf : String)
    (epochs : List (EpochResult P)) (h : ∃ e ∈ epochs, e.val_loss < ⊤) :
    bestModelPath lf = lf ++ "/srl_supervised_model.pth" ∧
    (∀ (pre : List (EpochResult P)) (e : EpochResult P),
      runEpochs (pre ++ [e]) =
        if e.val_loss < (runEpochs pre).best_error
        then ⟨e.val_loss, (runEpochs pre).saves ++ [e.params]⟩
        else runEpochs pre) ∧
    ∃ e ∈ epochs, checkpointFile epochs = some e.params ∧
      (∀ e2 ∈ epochs, e.val_loss ≤ e2.val_loss) ∧
      learnReturn f epochs = some (f e.params) := by
  refine ⟨rfl, ?_, ?_⟩
  · intro pre e
    unfold runEpochs
    rw [List.foldl_append]
    rfl
  · rcases runEpochs_spec epochs with ⟨_, hall⟩ | ⟨e, he, _, hlast, hmin⟩
    · obtain ⟨e, he, hlt⟩ := h
      exact absurd hlt (hall e he)
    · refine ⟨e, he, hlast, hmin, ?_⟩
      show (checkpointFile epochs).map f = _
      show ((runEpochs epochs).saves.getLast?).map f = _
      rw [hlast]
      rfl

/-- Witness for C2 at a concrete three-epoch run: losses 5, 3, 4; the
checkpoint reloaded at the end holds the parameters of the loss-3 epoch. -/
theorem C2_best_checkpoint_witness :
    ∃ e ∈ ([⟨0, ((5 : ℚ) : WithTop ℚ)⟩, ⟨1, ((3 : ℚ) : WithTop ℚ)⟩,
        ⟨2, ((4 : ℚ) : WithTop ℚ)⟩] : List (EpochResult Nat)),
      checkpointFile [⟨0, ((5 : ℚ) : WithTop ℚ)⟩, ⟨1, ((3 : ℚ) : WithTop ℚ)⟩,
        ⟨2, ((4 : ℚ) : WithTop ℚ)⟩] = some e.params ∧
      (∀ e2 ∈ ([⟨0, ((5 : ℚ) : WithTop ℚ)⟩, ⟨1, ((3 : ℚ) : WithTop ℚ)⟩,
          ⟨2, ((4 : ℚ) : WithTop ℚ)⟩] : List (EpochResult Nat)),
        e.val_loss ≤ e2.val_loss) ∧
      learnReturn (id : Nat → Nat) [⟨0, ((5 : ℚ) : WithTop ℚ)⟩,
        ⟨1, ((3 : ℚ) : WithTop ℚ)⟩, ⟨2, ((4 : ℚ) : WithTop ℚ)⟩] = some (id e.params) :=
  (C2_best_checkpoint (id : Nat → Nat) "logs/default"
    [⟨0, ((5 : ℚ) : WithTop ℚ)⟩, ⟨1, ((3 : ℚ) : WithTop ℚ)⟩, ⟨2, ((4 : ℚ) : WithTop ℚ)⟩]
    ⟨⟨1, ((3 : ℚ) : WithTop ℚ)⟩, by simp, WithTop.coe_lt_top _⟩).2.2

/-- C3: for every input of `N` samples, the representation `learn` returns has
exactly `N` rows and its `i`-th row is the model's prediction for the `i`-th
input sample, in original index order (the plotting loader iterates
`arange(N)` unshuffled, independent of training-loader shuffling). -/
theorem C3_output_order {β : Type} (model : Nat → β) (N : Nat) :
    (learnOutput model N).length = N ∧
    ∀ i, i < N → (learnOutput model N)[i]? = some (model i) := by
  have hjoin : (loaderBatches (List.range N) 512).flatten = List.range N :=
    chunkAux_flatten 512 (by norm_num) (List.range N).length (List.range N) le_rfl
  have hout : learnOutput model N = (List.range N).map model := by
    unfold learnOutput predStatesWithDataLoader
    rw [← List.map_flatten, hjoin]
  constructor
  · rw [hout, List.length_map, List.length_range]
  · intro i hi
    rw [hout, List.getElem?_map, List.getElem?_range hi]
    rfl

/-- Witness for C3 at `N = 3`, `i = 1`, a concrete squaring model. -/
theorem C3_output_order_witness :
    1 < 3 ∧ (learnOutput (fun n : Nat => n * n) 3)[1]? = some 1 :=
  ⟨by decide, (C3_output_order (fun n : Nat => n * n) 3).2 1 (by decide)⟩

/-- C4 (amended): `SupervisedLearning.__init__` accepts `"resnet"` and raises
`ValueError` naming any selector outside `{"resnet", "mlp"}`; but
`SRLModules.__init__` has no else branch: with `cuda=False` an unknown selector
constructs successfully with no encoder assigned (failure is deferred to later
use), and with `cuda=True` it fails at construction only with an
`AttributeError` on the missing `self.nn`, not an InvalidInput error. -/
theorem C4_construction_errors (mt : String)
    (h1 : mt ≠ "resnet") (h2 : mt ≠ "mlp") (h3 : mt ≠ "custom_cnn")
    (h4 : mt ≠ "linear") (h5 : mt ≠ "ae") :
    supervisedLearningInit "resnet" = .ok .resnet ∧
    supervisedLearningInit mt = .error ("Unknown model: " ++ mt) ∧
    (∀ (sd ad : Nat) (r : ℚ) (ls : List String) (f i r1 r2 r3 : Linear),
      srlModulesInit sd ad r false (some ls) mt f i r1 r2 r3 =
        .ok ⟨mt,
          if ls.contains "forward" then some (initForwardNet sd ad r f) else none,
          if ls.contains "inverse" then some (initInverseNet sd ad r i) else none,
          if ls.contains "reward" then some (initRewardNet sd ad r r1 r2 r3) else none,
          none⟩) ∧
    (∀ (sd ad : Nat) (r : ℚ) (ls : List String) (f i r1 r2 r3 : Linear),
      srlModulesInit sd ad r true (some ls) mt f i r1 r2 r3 =
        .error "AttributeError: SRLModules object has no attribute nn") := by
  have henc : srlEncoderFor mt = none := by
    unfold srlEncoderFor
    rw [if_neg h3, if_neg h4, if_neg h2, if_neg h1, if_neg h5]
  refine ⟨rfl, ?_, ?_, ?_⟩
  · unfold supervisedLearningInit
    rw [if_neg h1, if_neg h2]
  · intro sd ad r ls f i r1 r2 r3
    simp [srlModulesInit, henc]
  · intro sd ad r ls f i r1 r2 r3
    simp [srlModulesInit, henc]

/-- Witness for C4 at the concrete unknown selector `"quux"`. -/
theorem C4_construction_errors_witness :
    supervisedLearningInit "resnet" = .ok .resnet ∧
    supervisedLearningInit "quux" = .error ("Unknown model: " ++ "quux") :=
  ⟨(C4_construction_errors "quux" (by decide) (by decide) (by decide) (by decide)
      (by decide)).1,
   (C4_construction_errors "quux" (by decide) (by decide) (by decide) (by decide)
      (by decide)).2.1⟩

/-- C4 counterexample: constructing `SRLModules` with the unknown selector
`"quux"` (and `cuda=False`, empty loss list) succeeds — no error is raised at
construction, contradicting "fails immediately at construction". -/
theorem C4_no_error_counterexample :
    srlModulesInit 2 6 1 false (some []) "quux" (zerosLinear 0 0) (zerosLinear 0 0)
      (zerosLinear 0 0) (zerosLinear 0 0) (zerosLinear 0 0) =
      .ok ⟨"quux", none, none, none, none⟩ := by
  rfl

/-- C5: on shape-correct inputs, `forwardModel` returns
`state + L(concat(state[:, :floor(state_dim*ratio)], one_hot(action)))` where
`L` is the single linear layer of input width
`floor(state_dim*ratio) + action_dim` and output width `state_dim`; the output
has the state batch's width. -/
theorem C5_forward_model (sd ad : Nat) (r : ℚ) (net : Linear) (state : List ℚ)
    (action : Nat) (hnet : net.hasShape (sliceWidth sd r + ad) sd)
    (hstate : state.length = sd) (hk : sliceWidth sd r ≤ sd) :
    ∃ delta,
      applyLinear net (state.take (sliceWidth sd r) ++ encodeOneHot ad action) =
        some delta ∧
      (encodeOneHot ad action).length = ad ∧
      delta.length = sd ∧
      forwardModel (initForwardNet sd ad r net) state action =
        some (List.zipWith (· + ·) state delta) ∧
      (List.zipWith (· + ·) state delta).length = sd := by
  obtain ⟨happ, hlen, hfwd⟩ := forwardModel_spec sd ad r net state action hnet hstate hk
  refine ⟨_, happ, encodeOneHot_length ad action, hlen, hfwd, ?_⟩
  rw [List.length_zipWith, hstate, hlen]
  exact Nat.min_self sd

/-- Witness for C5 at `state_dim=4`, `action_dim=6`, `ratio=1`: the net has
input width `4 + 6 = 10`, the state has width 4 and the output width 4. -/
theorem C5_forward_model_witness :
    ∃ delta,
      applyLinear (zerosLinear 10 4)
          ([(0 : ℚ), 0, 0, 0].take (sliceWidth 4 1) ++ encodeOneHot 6 0) = some delta ∧
      (encodeOneHot 6 0).length = 6 ∧
      delta.length = 4 ∧
      forwardModel (initForwardNet 4 6 1 (zerosLinear 10 4)) [(0 : ℚ), 0, 0, 0] 0 =
        some (List.zipWith (· + ·) [(0 : ℚ), 0, 0, 0] delta) ∧
      (List.zipWith (· + ·) [(0 : ℚ), 0, 0, 0] delta).length = 4 :=
  C5_forward_model 4 6 1 (zerosLinear 10 4) [0, 0, 0, 0] 0
    (by rw [sliceWidth_four_one]; exact zerosLinear_hasShape 10 4) rfl
    (by simp [sliceWidth_four_one])

/-- A concrete forward net whose delta has a nonzero bias on the second state
dimension: weights zero, bias `[0, 1]`, for `state_dim=2`, `action_dim=1`,
`ratio=1/2`. -/
def c6net : Linear := ⟨[[0, 0], [0, 0]], [0, 1]⟩

/-- C6 counterexample: with `ratio = 1/2 < 1` the slice width is 1, yet the
predicted next state differs from the input state at index `1 ≥ 1`: the
forward net's delta spans the full state width, so the remainder is NOT left
untouched. -/
theorem C6_remainder_counterexample :
    sliceWidth 2 (1 / 2) = 1 ∧
    forwardModel (initForwardNet 2 1 (1 / 2) c6net) [(0 : ℚ), 0] 0 = some [0, 1] ∧
    ([(0 : ℚ), 1])[1]? ≠ ([(0 : ℚ), 0])[1]? := by
  refine ⟨sliceWidth_two_half, ?_, by norm_num⟩
  show (applyLinear c6net
      ([(0 : ℚ), 0].take (sliceWidth 2 (1 / 2)) ++ encodeOneHot 1 0)).bind
      (fun delta => addVec [(0 : ℚ), 0] delta) = some [0, 1]
  rw [sliceWidth_two_half,
    show [(0 : ℚ), 0].take 1 ++ encodeOneHot 1 0 = [0, 1] from rfl,
    (applyLinear_of_shape c6net 2 2 [0, 1] (by decide) rfl).1]
  show addVec [(0 : ℚ), 0] (linOut c6net [0, 1]) = some [0, 1]
  rw [addVec_eq [(0 : ℚ), 0] (linOut c6net [0, 1]) rfl]
  norm_num [linOut, dotQ, c6net]

/-- C6 (amended): `ratio` restricts only the forward net's INPUT to the first
`floor(state_dim*ratio)` state dimensions — two states agreeing on that slice
produce the identical delta — but the delta is added to every dimension of the
state, so dimensions at index `>= floor(state_dim*ratio)` are still modified
whenever the corresponding delta entry is nonzero. -/
theorem C6_ratio_restricts_inputs_only (sd ad : Nat) (r : ℚ) (net : Linear)
    (s1 s2 : List ℚ) (action : Nat)
    (hnet : net.hasShape (sliceWidth sd r + ad) sd)
    (hs1 : s1.length = sd) (hs2 : s2.length = sd) (hk : sliceWidth sd r ≤ sd)
    (hagree : s1.take (sliceWidth sd r) = s2.take (sliceWidth sd r)) :
    ∃ delta, delta.length = sd ∧
      forwardModel (initForwardNet sd ad r net) s1 action =
        some (List.zipWith (· + ·) s1 delta) ∧
      forwardModel (initForwardNet sd ad r net) s2 action =
        some (List.zipWith (· + ·) s2 delta) := by
  obtain ⟨_, hlen1, hfwd1⟩ := forwardModel_spec sd ad r net s1 action hnet hs1 hk
  obtain ⟨_, _, hfwd2⟩ := forwardModel_spec sd ad r net s2 action hnet hs2 hk
  rw [hagree] at hfwd1 hlen1
  exact ⟨_, hlen1, hfwd1, hfwd2⟩

/-- Witness for C6 (amended): two width-2 states agreeing on the width-1 slice
get the same delta from `c6net`. -/
theorem C6_ratio_restricts_inputs_only_witness :
    ∃ delta, delta.length = 2 ∧
      forwardModel (initForwardNet 2 1 (1 / 2) c6net) [(0 : ℚ), 0] 0 =
        some (List.zipWith (· + ·) [(0 : ℚ), 0] delta) ∧
      forwardModel (initForwardNet 2 1 (1 / 2) c6net) [(0 : ℚ), 5] 0 =
        some (List.zipWith (· + ·) [(0 : ℚ), 5] delta) :=
  C6_ratio_restricts_inputs_only 2 1 (1 / 2) c6net [0, 0] [0, 5] 0
    (by rw [sliceWidth_two_half]; decide) rfl rfl
    (by rw [sliceWidth_two_half]; norm_num) (by rw [sliceWidth_two_half]; rfl)

/-- C7: `inverseModel` feeds the single linear layer (input width
`2*floor(state_dim*ratio)`, output width `action_dim`) with the sliced states;
the output has width `action_dim` and depends only on the first
`floor(state_dim*ratio)` columns of each state batch. -/
theorem C7_inverse_model (sd ad : Nat) (r : ℚ) (net : Linear) (s ns : List ℚ)
    (hnet : net.hasShape (2 * sliceWidth sd r) ad)
    (hs : s.length = sd) (hns : ns.length = sd) (hk : sliceWidth sd r ≤ sd) :
    ∃ out, inverseModel (initInverseNet sd ad r net) s ns = some out ∧
      out.length = ad ∧
      ∀ s2 ns2 : List ℚ, s2.take (sliceWidth sd r) = s.take (sliceWidth sd r) →
        ns2.take (sliceWidth sd r) = ns.take (sliceWidth sd r) →
        inverseModel (initInverseNet sd ad r net) s2 ns2 = some out := by
  have hin : (s.take (sliceWidth sd r) ++ ns.take (sliceWidth sd r)).length =
      2 * sliceWidth sd r := by
    rw [List.length_append, List.length_take, List.length_take, hs, hns]
    omega
  obtain ⟨happ, hlen⟩ := applyLinear_of_shape net _ ad _ hnet hin
  refine ⟨_, happ, hlen, ?_⟩
  intro s2 ns2 hag1 hag2
  show applyLinear net (s2.take (sliceWidth sd r) ++ ns2.take (sliceWidth sd r)) = _
  rw [hag1, hag2]
  exact happ

/-- Witness for C7 at `state_dim=4`, `ratio=0.5`, `action_dim=6`: the slice
width is 2, the net has input width 4, and two width-4 batches are accepted. -/
theorem C7_inverse_model_witness :
    sliceWidth 4 (1 / 2) = 2 ∧
    ∃ out, inverseModel (initInverseNet 4 6 (1 / 2) (zerosLinear 4 6))
        [(1 : ℚ), 2, 3, 4] [(5 : ℚ), 6, 7, 8] = some out ∧
      out.length = 6 ∧
      ∀ s2 ns2 : List ℚ,
        s2.take (sliceWidth 4 (1 / 2)) = [(1 : ℚ), 2, 3, 4].take (sliceWidth 4 (1 / 2)) →
        ns2.take (sliceWidth 4 (1 / 2)) = [(5 : ℚ), 6, 7, 8].take (sliceWidth 4 (1 / 2)) →
        inverseModel (initInverseNet 4 6 (1 / 2) (zerosLinear 4 6)) s2 ns2 = some out :=
  ⟨sliceWidth_four_half,
   C7_inverse_model 4 6 (1 / 2) (zerosLinear 4 6) [1, 2, 3, 4] [5, 6, 7, 8]
    (by rw [sliceWidth_four_half]; decide) rfl rfl
    (by rw [sliceWidth_four_half]; norm_num)⟩

/-- C8 counterexample: at `state_dim=4`, `ratio=1/2` — a valid constructor
combination (the spec itself uses it for the inverse head) — `rewardModel` on
a full-width state fails: the first reward layer has input width
`floor(4*0.5) = 2` but receives the unsliced width-4 state. -/
theorem C8_shape_counterexample :
    rewardModel (initRewardNet 4 6 (1 / 2) (zerosLinear (sliceWidth 4 (1 / 2)) 2)
      (zerosLinear 2 2) (zerosLinear 2 2)) [(0 : ℚ), 0, 0, 0] = none := by
  rw [sliceWidth_four_half]
  decide

/-- C8 (amended): `rewardModel` pipes the FULL state through
linear(`floor(state_dim*ratio)`→2), ReLU, linear(2→2), ReLU, linear(2→2) with
no activation after the last layer and no dependence on `action_dim`; it
succeeds with a width-2 output exactly in the full-slice case
`floor(state_dim*ratio) = state_dim` (e.g. `ratio = 1`), and fails with a
shape error otherwise. -/
theorem C8_reward_width (sd ad : Nat) (r : ℚ) (l1 l2 l3 : Linear) (state : List ℚ)
    (h1 : l1.hasShape (sliceWidth sd r) 2) (h2 : l2.hasShape 2 2)
    (h3 : l3.hasShape 2 2) (hstate : state.length = sd)
    (hfull : sliceWidth sd r = sd) :
    ∃ y z out,
      applyLinear l1 state = some y ∧
      applyLinear l2 (reluVec y) = some z ∧
      applyLinear l3 (reluVec z) = some out ∧
      rewardModel (initRewardNet sd ad r l1 l2 l3) state = some out ∧
      out.length = 2 ∧
      ∀ ad2 : Nat, rewardModel (initRewardNet sd ad2 r l1 l2 l3) state = some out := by
  obtain ⟨ha1, hl1⟩ := applyLinear_of_shape l1 (sliceWidth sd r) 2 state h1
    (by rw [hstate, hfull])
  have hrel1 : (reluVec (linOut l1 state)).length = 2 := by
    rw [reluVec, List.length_map, hl1]
  obtain ⟨ha2, hl2⟩ := applyLinear_of_shape l2 2 2 _ h2 hrel1
  have hrel2 : (reluVec (linOut l2 (reluVec (linOut l1 state)))).length = 2 := by
    rw [reluVec, List.length_map, hl2]
  obtain ⟨ha3, hl3⟩ := applyLinear_of_shape l3 2 2 _ h3 hrel2
  have hrm : ∀ ad2 : Nat, rewardModel (initRewardNet sd ad2 r l1 l2 l3) state =
      some (linOut l3 (reluVec (linOut l2 (reluVec (linOut l1 state))))) := by
    intro ad2
    show (applyLinear l1 state).bind _ = _
    rw [ha1]
    show (applyLinear l2 (reluVec (linOut l1 state))).bind _ = _
    rw [ha2]
    exact ha3
  exact ⟨_, _, _, ha1, ha2, ha3, hrm ad, hl3, hrm⟩

/-- Witness for C8 (amended) at `state_dim=2`, `ratio=1`, zero layers. -/
theorem C8_reward_width_witness :
    ∃ y z out,
      applyLinear (zerosLinear 2 2) [(0 : ℚ), 0] = some y ∧
      applyLinear (zerosLinear 2 2) (reluVec y) = some z ∧
      applyLinear (zerosLinear 2 2) (reluVec z) = some out ∧
      rewardModel (initRewardNet 2 6 1 (zerosLinear 2 2) (zerosLinear 2 2)
        (zerosLinear 2 2)) [(0 : ℚ), 0] = some out ∧
      out.length = 2 ∧
      ∀ ad2 : Nat, rewardModel (initRewardNet 2 ad2 1 (zerosLinear 2 2)
        (zerosLinear 2 2) (zerosLinear 2 2)) [(0 : ℚ), 0] = some out := by
  have h := C8_reward_width 2 6 1 (zerosLinear 2 2) (zerosLinear 2 2) (zerosLinear 2 2)
    [0, 0] (by rw [sliceWidth_two_one]; exact zerosLinear_hasShape 2 2) (by decide)
    (by decide) rfl sliceWidth_two_one
  exact h

/-- C9 counterexample: constructing `SRLModules` with an ABSENT loss set (the
Python default `losses=None`) is not legal — the membership test
`"forward" not in losses` raises a `TypeError` on `None`. -/
theorem C9_none_losses_counterexample :
    srlModulesInit 2 6 1 false none "custom_cnn" (zerosLinear 0 0) (zerosLinear 0 0)
      (zerosLinear 0 0) (zerosLinear 0 0) (zerosLinear 0 0) =
      .error "TypeError: argument of type NoneType is not iterable" := rfl

/-- C9 (amended): an EMPTY requested-loss set is legal and yields a plain
encoder with no forward/inverse/reward head; invoking `forwardModel` (or
`inverseModel`, `rewardModel`) on such an instance fails with a
missing-attribute (MissingComponent) error rather than silently succeeding;
an absent (`None`) loss set instead raises a `TypeError` at construction. -/
theorem C9_empty_losses (sd ad : Nat) (r : ℚ) (f i r1 r2 r3 : Linear) :
    srlModulesInit sd ad r false (some []) "custom_cnn" f i r1 r2 r3 =
      .ok ⟨"custom_cnn", none, none, none, some .custom_cnn⟩ ∧
    (∀ (state : List ℚ) (action : Nat),
      SRLModulesState.callForwardModel
          ⟨"custom_cnn", none, none, none, some .custom_cnn⟩ state action =
        .error "AttributeError: SRLModules object has no attribute state_dim") ∧
    (∀ state next_state : List ℚ,
      SRLModulesState.callInverseModel
          ⟨"custom_cnn", none, none, none, some .custom_cnn⟩ state next_state =
        .error "AttributeError: SRLModules object has no attribute state_dim") ∧
    (∀ state : List ℚ,
      SRLModulesState.callRewardModel
          ⟨"custom_cnn", none, none, none, some .custom_cnn⟩ state =
        .error "AttributeError: SRLModules object has no attribute reward_net") :=
  ⟨rfl, fun _ _ => rfl, fun _ _ => rfl, fun _ => rfl⟩

/-- C10: when the first epoch's validation loss is finite, the checkpoint file
is written during the first epoch (best starts at infinity and the comparison
is strict), so the unconditional reload after the loop finds an existing file;
with zero epochs nothing is ever written and the reload fails. -/
theorem C10_first_epoch_guarantee {P R : Type} (f : P → R) (e : EpochResult P)
    (rest : List (EpochResult P)) (h : e.val_loss < ⊤) :
    runEpochs [e] = ⟨e.val_loss, [e.params]⟩ ∧
    (runEpochs (e :: rest)).saves.head? = some e.params ∧
    (checkpointFile (e :: rest)).isSome = true ∧
    checkpointFile ([] : List (EpochResult P)) = none ∧
    learnReturn f ([] : List (EpochResult P)) = none := by
  have hstep : ckptStep ⟨⊤, []⟩ e = ⟨e.val_loss, [e.params]⟩ := by
    unfold ckptStep
    rw [if_pos h]
    rfl
  have hrun : runEpochs (e :: rest) = List.foldl ckptStep ⟨e.val_loss, [e.params]⟩ rest := by
    unfold runEpochs
    rw [List.foldl_cons, hstep]
  obtain ⟨t, ht⟩ := foldl_ckptStep_saves rest ⟨e.val_loss, [e.params]⟩
  refine ⟨?_, ?_, ?_, rfl, rfl⟩
  · unfold runEpochs
    rw [List.foldl_cons, hstep]
    rfl
  · rw [hrun, ht]
    rfl
  · show ((runEpochs (e :: rest)).saves.getLast?).isSome = true
    rw [hrun, ht, List.getLast?_isSome]
    simp

/-- Witness for C10 at a concrete two-epoch run with finite first loss. -/
theorem C10_first_epoch_guarantee_witness :
    runEpochs [(⟨7, ((1 : ℚ) : WithTop ℚ)⟩ : EpochResult Nat)] =
      ⟨((1 : ℚ) : WithTop ℚ), [7]⟩ ∧
    (runEpochs [(⟨7, ((1 : ℚ) : WithTop ℚ)⟩ : EpochResult Nat),
        ⟨8, ((2 : ℚ) : WithTop ℚ)⟩]).saves.head? = some 7 ∧
    (checkpointFile [(⟨7, ((1 : ℚ) : WithTop ℚ)⟩ : EpochResult Nat),
        ⟨8, ((2 : ℚ) : WithTop ℚ)⟩]).isSome = true ∧
    checkpointFile ([] : List (EpochResult Nat)) = none ∧
    learnReturn (id : Nat → Nat) ([] : List (EpochResult Nat)) = none :=
  C10_first_epoch_guarantee (id : Nat → Nat) ⟨7, ((1 : ℚ) : WithTop ℚ)⟩
    [⟨8, ((2 : ℚ) : WithTop ℚ)⟩] (WithTop.coe_lt_top _)

end SrlZoo
